import Mathlib

/-!
Shallow embedding of `src/script.js` (adityamkk/planetary-motion), a 2-D
gravitational N-body simulation.  JavaScript numbers are modelled as real
numbers; the global `bodies` array is modelled as an explicit `List Body`
argument.  The repository file contains two revisions of the script; where
they differ (the `Star` factory and `angle`), both revisions are embedded
and named accordingly.
-/

open Real

namespace PlanetaryMotion

/-- Nonconstructive decidability is used for `if` tests on real numbers,
mirroring JavaScript's exact `===`/`!=`/`>` comparisons. -/
noncomputable instance (priority := low) (p : Prop) : Decidable p :=
  Classical.propDecidable p

noncomputable section

/-- `const G = 6.67 * Math.pow(10,-11);` -/
def G : ℝ := 6.67 * (10 : ℝ) ^ (-11 : ℤ)

/-- `const SUN = 100000000000000;` -/
def SUN : ℝ := 100000000000000

/-- `const PLANET = SUN/1000000;` -/
def PLANET : ℝ := SUN / 1000000

/-- `const MOON = PLANET/10000;` (second revision; the first uses `PLANET/100`). -/
def MOON : ℝ := PLANET / 10000

/-- A `Body` from `class Body`: mass, position, velocity, acceleration,
radius and the three colour channels.  (The source also stores the initial
`speed` and `angle` constructor arguments in unused fields; they are never
read back, so they are omitted.) -/
structure Body where
  mass : ℝ
  x : ℝ
  y : ℝ
  vx : ℝ
  vy : ℝ
  ax : ℝ
  ay : ℝ
  radius : ℝ
  r : ℕ
  g : ℕ
  b : ℕ

/-- The `Body` constructor: `this.vx = speed*Math.cos(angle); this.vy =
speed*Math.sin(angle);` with zero initial acceleration. -/
def mkBody (mass x y speed ang radius : ℝ) (r g b : ℕ) : Body :=
  ⟨mass, x, y, speed * Real.cos ang, speed * Real.sin ang, 0, 0, radius, r, g, b⟩

/-- `function distance(body1, body2)`. -/
def distance (body1 body2 : Body) : ℝ :=
  Real.sqrt ((body1.x - body2.x) ^ 2 + (body1.y - body2.y) ^ 2)

/-- `function sqDistance(body1, body2)`. -/
def sqDistance (body1 body2 : Body) : ℝ :=
  (body1.x - body2.x) ^ 2 + (body1.y - body2.y) ^ 2

/-- `function angle(body1, body2)` in the second revision (lines 449-464):
`atan` of the slope, with `π` added when the target is to the left
(`body2.x < body1.x`), and `π/2` / `3π/2` on the vertical. -/
def angle (body1 body2 : Body) : ℝ :=
  if body2.x - body1.x ≠ 0 then
    if body2.x > body1.x then
      Real.arctan ((body2.y - body1.y) / (body2.x - body1.x))
    else
      Real.pi + Real.arctan ((body2.y - body1.y) / (body2.x - body1.x))
  else
    if body2.y - body1.y > 0 then Real.pi / 2 else 3 * Real.pi / 2

/-- `function angle(body1, body2)` in the first revision (lines 72-82):
same as the second revision but with no quadrant correction for
`body2.x < body1.x`. -/
def angleV1 (body1 body2 : Body) : ℝ :=
  if body2.x - body1.x ≠ 0 then
    Real.arctan ((body2.y - body1.y) / (body2.x - body1.x))
  else
    if body2.y - body1.y > 0 then Real.pi / 2 else 3 * Real.pi / 2

/-- The guard of the force-accumulation loop:
`this.getX() === bodies.at(i).getX() && this.getY() === bodies.at(i).getY()`.
The loop's other conjunct, the object-identity test `this != bodies.at(i)`,
is subsumed: an identical object trivially has an identical position, so a
term is accumulated exactly when the positions differ. -/
def samePos (b1 b2 : Body) : Prop := b1.x = b2.x ∧ b1.y = b2.y

/-- One accumulated x-term of `updateAcceleration`:
`(G*bodies.at(i).getMass()/sqDistance(this,bodies.at(i)))*((bodies.at(i).getX()-this.getX())/distance(this,bodies.at(i)))`. -/
def accelX (self o : Body) : ℝ :=
  G * o.mass / sqDistance self o * ((o.x - self.x) / distance self o)

/-- One accumulated y-term of `updateAcceleration`. -/
def accelY (self o : Body) : ℝ :=
  G * o.mass / sqDistance self o * ((o.y - self.y) / distance self o)

/-- One iteration of the `updateAcceleration` loop body: skip when the
guard fails, otherwise add the pair's contribution to the accumulator. -/
def gravStep (self : Body) (acc : ℝ × ℝ) (o : Body) : ℝ × ℝ :=
  if samePos self o then acc else (acc.1 + accelX self o, acc.2 + accelY self o)

/-- The `(gx, gy)` accumulation of `updateAcceleration` over the `bodies`
array, iterated front to back as in the `for` loop. -/
def gravSum (all : List Body) (self : Body) : ℝ × ℝ :=
  all.foldl (gravStep self) (0, 0)

/-- `updateAcceleration()`: `this.setAX(gx); this.setAY(gy);`. -/
def updateAcceleration (all : List Body) (self : Body) : Body :=
  { self with ax := (gravSum all self).1, ay := (gravSum all self).2 }

/-- `updateVelocity()`. -/
def updateVelocity (self : Body) : Body :=
  { self with vx := self.vx + self.ax, vy := self.vy + self.ay }

/-- `updatePosition()`. -/
def updatePosition (self : Body) : Body :=
  { self with x := self.x + self.vx, y := self.y + self.vy }

/-- `assignParent(body)`: circular-orbit speed around the anchor, directed
`+π/2` from this body's bearing to the anchor, plus the anchor's velocity. -/
def assignParent (self body : Body) : Body :=
  { self with
    vx := Real.sqrt (G * body.mass / distance self body) *
            Real.cos (angle self body + Real.pi / 2) + body.vx,
    vy := Real.sqrt (G * body.mass / distance self body) *
            Real.sin (angle self body + Real.pi / 2) + body.vy }

/-- The `v1` constant of `assignBinary`:
`Math.sqrt(G*Math.pow(body.getMass(),2)/(r*(this.getMass()+body.getMass())))`. -/
def binV1 (self body : Body) : ℝ :=
  Real.sqrt (G * body.mass ^ 2 / (distance self body * (self.mass + body.mass)))

/-- The `v2` constant of `assignBinary`. -/
def binV2 (self body : Body) : ℝ :=
  Real.sqrt (G * self.mass ^ 2 / (distance self body * (self.mass + body.mass)))

/-- `assignBinary(body)`: returns the pair (updated `this`, updated `body`).
The source mutates velocities only, and recomputes `angle` from positions
(which the mutations do not touch), so the sequential mutations are
equivalent to this simultaneous assignment. -/
def assignBinary (self body : Body) : Body × Body :=
  ({ self with
      vx := binV1 self body * Real.cos (angle self body + Real.pi / 2),
      vy := binV1 self body * Real.sin (angle self body + Real.pi / 2) },
   { body with
      vx := binV2 self body * Real.cos (angle body self + Real.pi / 2),
      vy := binV2 self body * Real.sin (angle body self + Real.pi / 2) })

/-- `getSpeed()`. -/
def getSpeed (self : Body) : ℝ := Real.sqrt (self.vx ^ 2 + self.vy ^ 2)

/-- `class Star` of the second revision (lines 565-592), an `if`/`else`
chain on the sub-type tag; any unrecognised tag takes the final `else`. -/
def mkStar (x y speed ang : ℝ) (type : String) : Body :=
  if type = "blue" then mkBody (50 * SUN) x y speed ang 25 38 97 156
  else if type = "red" then mkBody (0.1 * SUN) x y speed ang 25 125 0 0
  else if type = "yellow" then mkBody (0.85 * SUN) x y speed ang 25 255 220 0
  else if type = "orange" then mkBody (0.5 * SUN) x y speed ang 25 255 102 0
  else if type = "giant" then mkBody (1000 * SUN) x y speed ang 25 255 100 0
  else mkBody SUN x y speed ang 25 255 255 0

/-- `class Star` of the first revision (lines 188-225), a `switch` on the
sub-type tag.  The `case "giant"` arm assigns `mass = 1000*SUN` but has no
`break`, so control falls through into `default`, which overwrites mass and
colour with the main-sequence values; the net effect embedded here is that
"giant" produces the default body. -/
def mkStarV1 (x y speed ang : ℝ) (type : String) : Body :=
  if type = "main" then mkBody SUN x y speed ang 25 255 255 0
  else if type = "blue" then mkBody (50 * SUN) x y speed ang 25 38 97 156
  else if type = "red" then mkBody (0.1 * SUN) x y speed ang 25 125 0 0
  else if type = "yellow" then mkBody (0.85 * SUN) x y speed ang 25 255 240 0
  else if type = "orange" then mkBody (0.6 * SUN) x y speed ang 25 255 102 0
  else if type = "giant" then mkBody SUN x y speed ang 25 255 255 0
  else mkBody SUN x y speed ang 25 255 255 0

/-- The two method calls performed on each body in the first `for` loop of
`loop()`: `b.updateAcceleration(); b.updateVelocity();`. -/
def avStep (all : List Body) (b : Body) : Body :=
  updateVelocity (updateAcceleration all b)

/-- The first `for` loop of `loop()`, executed sequentially over the shared
`bodies` array: when the loop reaches body `b`, the array holds the
already-processed prefix followed by `b` and the untouched suffix, and
`b.updateAcceleration()` reads that whole current array. -/
def phase1Go : List Body → List Body → List Body
  | processed, [] => processed
  | processed, b :: rest =>
      phase1Go (processed ++ [avStep (processed ++ b :: rest) b]) rest

/-- The complete first `for` loop of `loop()`. -/
def phase1 (l : List Body) : List Body := phase1Go [] l

/-- The contents of the `bodies` array between the first and second
iterations of the first `for` loop of `loop()` (the first body has had
`updateAcceleration` and `updateVelocity` called; no other body has). -/
def stateAfterFirst : List Body → List Body
  | [] => []
  | b :: rest => avStep (b :: rest) b :: rest

/-- The second `for` loop of `loop()`: `updatePosition` reads and writes
only the body itself (`move()` only draws), so it is a plain map. -/
def phase2 (l : List Body) : List Body := l.map updatePosition

/-- The sub-list of bodies whose contribution is actually accumulated by
`updateAcceleration`: those at a position different from `self`'s. -/
def partners (all : List Body) (self : Body) : List Body :=
  all.filter fun o => decide (¬ samePos self o)

/-- The mass and position of a body: everything `updateAcceleration` reads
about an element of the `bodies` array. -/
def phys (b : Body) : ℝ × ℝ × ℝ := (b.mass, b.x, b.y)

end

lemma G_pos : 0 < G := by unfold G; positivity

lemma angle_of_gt {p q : Body} (h : p.x < q.x) :
    angle p q = Real.arctan ((q.y - p.y) / (q.x - p.x)) := by
  have h0 : q.x - p.x ≠ 0 := sub_ne_zero.mpr h.ne'
  simp only [angle, if_pos h0, if_pos h]

lemma angle_of_lt {p q : Body} (h : q.x < p.x) :
    angle p q = Real.pi + Real.arctan ((q.y - p.y) / (q.x - p.x)) := by
  have h0 : q.x - p.x ≠ 0 := sub_ne_zero.mpr h.ne
  simp only [angle, if_pos h0, if_neg (lt_asymm h)]

lemma angle_of_eq_pos {p q : Body} (hx : q.x = p.x) (hy : p.y < q.y) :
    angle p q = Real.pi / 2 := by
  have h0 : ¬ q.x - p.x ≠ 0 := by simp [sub_eq_zero.mpr hx]
  have h1 : q.y - p.y > 0 := sub_pos.mpr hy
  simp only [angle, if_neg h0, if_pos h1]

lemma angle_of_eq_nonpos {p q : Body} (hx : q.x = p.x) (hy : q.y ≤ p.y) :
    angle p q = 3 * Real.pi / 2 := by
  have h0 : ¬ q.x - p.x ≠ 0 := by simp [sub_eq_zero.mpr hx]
  have h1 : ¬ q.y - p.y > 0 := not_lt.mpr (sub_nonpos.mpr hy)
  simp only [angle, if_neg h0, if_neg h1]

/-- A body at the origin; only the position fields matter to `angle`. -/
noncomputable def pOrigin : Body := ⟨1, 0, 0, 0, 0, 0, 0, 1, 0, 0, 0⟩

/-- A body at (1, -1): to the right of and below the origin. -/
noncomputable def pSE : Body := ⟨1, 1, -1, 0, 0, 0, 0, 1, 0, 0, 0⟩

/-- A body at (0, 3): straight above the origin. -/
noncomputable def pN : Body := ⟨1, 0, 3, 0, 0, 0, 0, 1, 0, 0, 0⟩

/-- C2, counterexample: for the distinct points (0,0) and (1,-1) the
`angle` function returns `arctan (-1) = -π/4`, which is negative, so the
result is not in the claimed interval `[0, 2π)`. -/
theorem angle_not_in_claimed_range :
    ¬ samePos pOrigin pSE ∧
      ¬ (0 ≤ angle pOrigin pSE ∧ angle pOrigin pSE < 2 * Real.pi) := by
  have hx : pOrigin.x < pSE.x := by norm_num [pOrigin, pSE]
  have hneg : angle pOrigin pSE < 0 := by
    rw [angle_of_gt hx]
    have hq : (pSE.y - pOrigin.y) / (pSE.x - pOrigin.x) = -1 := by
      norm_num [pOrigin, pSE]
    rw [hq, show (-1 : ℝ) = -(1 : ℝ) by norm_num, Real.arctan_neg,
      Real.arctan_one]
    linarith [Real.pi_pos]
  refine ⟨?_, fun hc => absurd hneg (not_lt.mpr hc.1)⟩
  simp only [samePos, pOrigin, pSE]
  norm_num

/-- C2 (amended): for distinct points `p` and `q`, `angle p q` is computed
as `atan(Δy/Δx)` with a `π` correction when `Δx < 0`, and as `π/2` /
`3π/2` on the vertical, exactly as claimed — but its value lies in
`(-π/2, 3π/2]`, not `[0, 2π)`: when `Δx > 0` and `Δy < 0` the result is the
bearing minus `2π`, a negative number. -/
theorem angle_quadrant_correction (p q : Body) (h : ¬ samePos p q) :
    (-(Real.pi / 2) < angle p q ∧ angle p q ≤ 3 * Real.pi / 2) ∧
    (p.x < q.x → angle p q = Real.arctan ((q.y - p.y) / (q.x - p.x))) ∧
    (q.x < p.x → angle p q = Real.pi + Real.arctan ((q.y - p.y) / (q.x - p.x))) ∧
    (q.x = p.x → p.y < q.y → angle p q = Real.pi / 2) ∧
    (q.x = p.x → q.y ≤ p.y → angle p q = 3 * Real.pi / 2) := by
  refine ⟨?_, fun hx => angle_of_gt hx, fun hx => angle_of_lt hx,
    fun hx hy => angle_of_eq_pos hx hy, fun hx hy => angle_of_eq_nonpos hx hy⟩
  rcases lt_trichotomy p.x q.x with hx | hx | hx
  · rw [angle_of_gt hx]
    constructor
    · exact Real.neg_pi_div_two_lt_arctan _
    · have := Real.arctan_lt_pi_div_two ((q.y - p.y) / (q.x - p.x))
      linarith [Real.pi_pos]
  · rcases lt_or_le p.y q.y with hy | hy
    · rw [angle_of_eq_pos hx.symm hy]
      constructor <;> linarith [Real.pi_pos]
    · rw [angle_of_eq_nonpos hx.symm hy]
      constructor <;> linarith [Real.pi_pos]
  · rw [angle_of_lt hx]
    have h1 := Real.neg_pi_div_two_lt_arctan ((q.y - p.y) / (q.x - p.x))
    have h2 := Real.arctan_lt_pi_div_two ((q.y - p.y) / (q.x - p.x))
    constructor <;> linarith [Real.pi_pos]

/-- Witness for C2's amended theorem at the concrete distinct points
(0,0) and (0,3). -/
theorem angle_quadrant_correction_witness :
    (-(Real.pi / 2) < angle pOrigin pN ∧ angle pOrigin pN ≤ 3 * Real.pi / 2) ∧
    (pOrigin.x < pN.x →
      angle pOrigin pN = Real.arctan ((pN.y - pOrigin.y) / (pN.x - pOrigin.x))) ∧
    (pN.x < pOrigin.x →
      angle pOrigin pN = Real.pi + Real.arctan ((pN.y - pOrigin.y) / (pN.x - pOrigin.x))) ∧
    (pN.x = pOrigin.x → pOrigin.y < pN.y → angle pOrigin pN = Real.pi / 2) ∧
    (pN.x = pOrigin.x → pN.y ≤ pOrigin.y → angle pOrigin pN = 3 * Real.pi / 2) :=
  angle_quadrant_correction pOrigin pN (by simp only [samePos, pOrigin, pN]; norm_num)

lemma mem_partners {all : List Body} {self o : Body} :
    o ∈ partners all self ↔ o ∈ all ∧ ¬ samePos self o := by
  simp [partners, List.mem_filter, decide_eq_true_eq]

lemma sqDistance_pos {a b : Body} (h : ¬ samePos a b) : 0 < sqDistance a b := by
  have hne : a.x - b.x ≠ 0 ∨ a.y - b.y ≠ 0 := by
    rcases not_and_or.mp h with hx | hy
    · exact Or.inl (sub_ne_zero.mpr hx)
    · exact Or.inr (sub_ne_zero.mpr hy)
  have h1 := sq_nonneg (a.x - b.x)
  have h2 := sq_nonneg (a.y - b.y)
  rcases hne with hx | hy
  · have : 0 < (a.x - b.x) ^ 2 :=
      lt_of_le_of_ne h1 (Ne.symm (pow_ne_zero 2 hx))
    unfold sqDistance; linarith
  · have : 0 < (a.y - b.y) ^ 2 :=
      lt_of_le_of_ne h2 (Ne.symm (pow_ne_zero 2 hy))
    unfold sqDistance; linarith

lemma distance_eq_sqrt_sqDistance (a b : Body) :
    distance a b = Real.sqrt (sqDistance a b) := rfl

lemma distance_pos {a b : Body} (h : ¬ samePos a b) : 0 < distance a b := by
  rw [distance_eq_sqrt_sqDistance]
  exact Real.sqrt_pos.mpr (sqDistance_pos h)

lemma gravSum_eq_sum (all : List Body) (self : Body) :
    gravSum all self =
      (((partners all self).map (accelX self)).sum,
       ((partners all self).map (accelY self)).sum) := by
  suffices h : ∀ (l : List Body) (acc : ℝ × ℝ), l.foldl (gravStep self) acc =
      (acc.1 + ((partners l self).map (accelX self)).sum,
       acc.2 + ((partners l self).map (accelY self)).sum) by
    rw [gravSum, h]
    simp
  intro l
  induction l with
  | nil => intro acc; simp [partners]
  | cons o t ih =>
    intro acc
    by_cases hp : samePos self o
    · have hpart : partners (o :: t) self = partners t self := by
        simp [partners, List.filter_cons, hp]
      rw [List.foldl_cons]
      simp only [gravStep, if_pos hp]
      rw [ih, hpart]
    · have hpart : partners (o :: t) self = o :: partners t self := by
        simp [partners, List.filter_cons, hp]
      rw [List.foldl_cons]
      simp only [gravStep, if_neg hp]
      rw [ih, hpart]
      simp only [List.map_cons, List.sum_cons]
      rw [Prod.mk.injEq]
      constructor <;> ring

/-- C7: the force accumulation of `updateAcceleration` skips every body at
the same position as the calling body (in particular two distinct coincident
bodies contribute nothing to each other), the accumulated value is exactly
the sum over the non-coincident bodies, and in every accumulated term both
divisors — the squared distance and the distance — are nonzero. -/
theorem updateAcceleration_no_division_by_zero (all : List Body) (self : Body) :
    (∀ o ∈ all, samePos self o → o ∉ partners all self) ∧
    (∀ o ∈ partners all self, sqDistance self o ≠ 0 ∧ distance self o ≠ 0) ∧
    gravSum all self =
      (((partners all self).map (accelX self)).sum,
       ((partners all self).map (accelY self)).sum) := by
  refine ⟨fun o _ hp hmem => (mem_partners.mp hmem).2 hp, fun o hmem => ?_,
    gravSum_eq_sum all self⟩
  have hns : ¬ samePos self o := (mem_partners.mp hmem).2
  exact ⟨ne_of_gt (sqDistance_pos hns), ne_of_gt (distance_pos hns)⟩

/-- Witness for C7 on the concrete set {(0,0), (0,3)}: the calling body is
excluded from its own sum, and the accumulated partner has nonzero
divisors. -/
theorem updateAcceleration_no_division_by_zero_witness :
    pOrigin ∉ partners [pOrigin, pN] pOrigin ∧
      sqDistance pOrigin pN ≠ 0 ∧ distance pOrigin pN ≠ 0 :=
  ⟨(updateAcceleration_no_division_by_zero [pOrigin, pN] pOrigin).1 pOrigin
      (by simp) ⟨rfl, rfl⟩,
   (updateAcceleration_no_division_by_zero [pOrigin, pN] pOrigin).2.1 pN
      (mem_partners.mpr ⟨by simp, by simp only [samePos, pOrigin, pN]; norm_num⟩)⟩

/-- C8: the acceleration computed by `updateAcceleration` is invariant
under any permutation of the active body set. -/
theorem updateAcceleration_order_independent (all all2 : List Body)
    (self : Body) (h : all.Perm all2) :
    updateAcceleration all self = updateAcceleration all2 self := by
  have hperm : (partners all self).Perm (partners all2 self) :=
    h.filter fun o => decide (¬ samePos self o)
  have hx : ((partners all self).map (accelX self)).sum =
      ((partners all2 self).map (accelX self)).sum :=
    (hperm.map (accelX self)).sum_eq
  have hy : ((partners all self).map (accelY self)).sum =
      ((partners all2 self).map (accelY self)).sum :=
    (hperm.map (accelY self)).sum_eq
  unfold updateAcceleration
  rw [gravSum_eq_sum, gravSum_eq_sum, hx, hy]

/-- Witness for C8 at a concrete two-element set and its swap. -/
theorem updateAcceleration_order_independent_witness :
    updateAcceleration [pOrigin, pN] pOrigin =
      updateAcceleration [pN, pOrigin] pOrigin :=
  updateAcceleration_order_independent [pOrigin, pN] [pN, pOrigin] pOrigin
    (List.Perm.swap pN pOrigin [])

/-- C9: on an empty active set, or on a set containing only the calling
body itself, `updateAcceleration` sets the acceleration to exactly (0,0) —
a body is always excluded from its own force sum. -/
theorem updateAcceleration_empty_or_self (self : Body) :
    (updateAcceleration [] self).ax = 0 ∧ (updateAcceleration [] self).ay = 0 ∧
    (updateAcceleration [self] self).ax = 0 ∧
    (updateAcceleration [self] self).ay = 0 := by
  have hs : samePos self self := ⟨rfl, rfl⟩
  simp [updateAcceleration, gravSum, gravStep, if_pos hs]

lemma gravStep_congr (self : Body) (acc : ℝ × ℝ) {o o2 : Body}
    (h : phys o = phys o2) : gravStep self acc o = gravStep self acc o2 := by
  simp only [phys, Prod.mk.injEq] at h
  obtain ⟨hm, hx, hy⟩ := h
  simp only [gravStep, samePos, accelX, accelY, sqDistance, distance, hm, hx, hy]

lemma gravSum_go_congr (self : Body) :
    ∀ (l1 l2 : List Body) (acc : ℝ × ℝ), l1.map phys = l2.map phys →
      l1.foldl (gravStep self) acc = l2.foldl (gravStep self) acc := by
  intro l1
  induction l1 with
  | nil =>
    intro l2 acc h
    have : l2 = [] := by simpa using h.symm
    rw [this]
  | cons a t ih =>
    intro l2 acc h
    cases l2 with
    | nil => simp at h
    | cons a2 t2 =>
      simp only [List.map_cons, List.cons.injEq] at h
      obtain ⟨hh, ht⟩ := h
      rw [List.foldl_cons, List.foldl_cons, gravStep_congr self acc hh,
        ih t2 (gravStep self acc a2) ht]

/-- `updateAcceleration` reads only the masses and positions of the bodies
in the array, so any two arrays agreeing on those produce the same sums. -/
lemma gravSum_congr {l1 l2 : List Body} (h : l1.map phys = l2.map phys)
    (self : Body) : gravSum l1 self = gravSum l2 self :=
  gravSum_go_congr self l1 l2 (0, 0) h

lemma avStep_congr {l1 l2 : List Body} (h : l1.map phys = l2.map phys)
    (b : Body) : avStep l1 b = avStep l2 b := by
  simp only [avStep, updateVelocity, updateAcceleration, gravSum_congr h b]

/-- The phase-1 loop body never changes a body's mass or position. -/
lemma phys_avStep (all : List Body) (b : Body) : phys (avStep all b) = phys b := rfl

lemma phase1Go_eq (L : List Body) :
    ∀ (todo processed : List Body),
      (processed ++ todo).map phys = L.map phys →
      phase1Go processed todo = processed ++ todo.map (fun b => avStep L b) := by
  intro todo
  induction todo with
  | nil => intro processed _; simp [phase1Go]
  | cons b rest ih =>
    intro processed h
    rw [phase1Go, avStep_congr h b]
    have h2 : ((processed ++ [avStep L b]) ++ rest).map phys = L.map phys := by
      simpa [phys_avStep] using h
    rw [ih (processed ++ [avStep L b]) h2]
    simp

/-- C1 (amended): the first loop of `loop()` interleaves each body's
velocity update with its acceleration update, but every acceleration it
computes still depends only on the start-of-tick positions and masses: the
sequential in-place loop produces exactly the same result as recomputing
every body from the initial snapshot of the array, and it leaves every
position unchanged. -/
theorem phase1_consistent_snapshot (l : List Body) :
    phase1 l = l.map (fun b => avStep l b) ∧
    (phase1 l).map (fun b => (b.x, b.y)) = l.map (fun b => (b.x, b.y)) := by
  have h1 : phase1 l = l.map (fun b => avStep l b) := by
    unfold phase1
    exact phase1Go_eq l l [] (by simp)
  refine ⟨h1, ?_⟩
  rw [h1, List.map_map]
  rfl

/-- A unit-mass body at rest at the origin. -/
noncomputable def bodyA : Body := ⟨1, 0, 0, 0, 0, 0, 0, 1, 255, 255, 255⟩

/-- A unit-mass body at rest at (1, 0). -/
noncomputable def bodyB : Body := ⟨1, 1, 0, 0, 0, 0, 0, 1, 255, 255, 255⟩

/-- A body with the same mass and position as bodyA but a different
(nonzero) velocity. -/
noncomputable def bodyA2 : Body := ⟨1, 0, 0, 5, 7, 0, 0, 1, 255, 255, 255⟩

/-- A body with the same mass and position as bodyB but a different
(nonzero) velocity. -/
noncomputable def bodyB2 : Body := ⟨1, 1, 0, -3, 2, 0, 0, 1, 255, 255, 255⟩

lemma gravSum_bodyA : gravSum [bodyA, bodyB] bodyA = (G, 0) := by
  have hAB : ¬ samePos bodyA bodyB := by
    simp only [samePos, bodyA, bodyB]
    norm_num
  have step1 : gravStep bodyA (0, 0) bodyA = (0, 0) := by
    rw [gravStep, if_pos ⟨rfl, rfl⟩]
  have step2 : gravStep bodyA (0, 0) bodyB = (G, 0) := by
    rw [gravStep, if_neg hAB]
    simp only [accelX, accelY, sqDistance, distance, bodyA, bodyB]
    norm_num [Real.sqrt_one, Prod.ext_iff]
  simp only [gravSum, List.foldl_cons, List.foldl_nil, step1, step2]

lemma gravSum_bodyB : gravSum [bodyA, bodyB] bodyB = (-G, 0) := by
  have hBA : ¬ samePos bodyB bodyA := by
    simp only [samePos, bodyA, bodyB]
    norm_num
  have step1 : gravStep bodyB (0, 0) bodyA = (-G, 0) := by
    rw [gravStep, if_neg hBA]
    simp only [accelX, accelY, sqDistance, distance, bodyA, bodyB]
    norm_num [Real.sqrt_one, Prod.ext_iff]
  have step2 : gravStep bodyB (-G, 0) bodyB = (-G, 0) := by
    rw [gravStep, if_pos ⟨rfl, rfl⟩]
  simp only [gravSum, List.foldl_cons, List.foldl_nil, step1, step2]

/-- C1, counterexample: phase 1 does NOT fully complete before velocities
are mutated.  For the two-body system {bodyA at (0,0), bodyB at (1,0)},
after the first iteration of the phase-1 loop bodyA's velocity has already
been mutated (first conjunct), while the array's accelerations are not yet
the ones phase 1 finally computes — bodyB's acceleration is still its stale
initial value (second conjunct). -/
theorem phase1_velocity_mutated_early :
    (stateAfterFirst [bodyA, bodyB]).map (fun b => b.vx) ≠
      [bodyA, bodyB].map (fun b => b.vx) ∧
    (stateAfterFirst [bodyA, bodyB]).map (fun b => b.ax) ≠
      (phase1 [bodyA, bodyB]).map (fun b => b.ax) := by
  have hG := G_pos
  have hstate : stateAfterFirst [bodyA, bodyB] =
      [avStep [bodyA, bodyB] bodyA, bodyB] := rfl
  have hvA0 : bodyA.vx = 0 := rfl
  have hvA : (avStep [bodyA, bodyB] bodyA).vx = G := by
    simp only [avStep, updateVelocity, updateAcceleration, gravSum_bodyA, hvA0,
      zero_add]
  have haA : (avStep [bodyA, bodyB] bodyA).ax = G := by
    simp only [avStep, updateVelocity, updateAcceleration, gravSum_bodyA]
  have hphase : phase1 [bodyA, bodyB] =
      [avStep [bodyA, bodyB] bodyA, avStep [bodyA, bodyB] bodyB] := by
    unfold phase1
    rw [phase1Go_eq [bodyA, bodyB] [bodyA, bodyB] [] (by simp)]
    simp
  have haB : (avStep [bodyA, bodyB] bodyB).ax = -G := by
    simp [avStep, updateVelocity, updateAcceleration, gravSum_bodyB]
  constructor
  · rw [hstate]
    simp only [List.map_cons, List.map_nil, hvA, ne_eq, List.cons.injEq]
    intro hc
    rw [show bodyA.vx = 0 from rfl] at hc
    exact absurd hc.1 (ne_of_gt hG)
  · rw [hstate, hphase]
    simp only [List.map_cons, List.map_nil, haA, haB, ne_eq, List.cons.injEq]
    intro hc
    rw [show bodyB.ax = 0 from rfl] at hc
    have : (0 : ℝ) = -G := hc.2.1
    linarith

/-- C3: the Star factory's mass table.  The second revision's factory
matches the claimed table — main = SUN, blue = 50·SUN, red = 0.1·SUN,
yellow = 0.85·SUN, orange = 0.5·SUN (inside the claimed 0.5–0.6 range),
giant = 1000·SUN — and an unknown tag resolves without failing to the
main-sequence default (mass SUN, yellow colour 255/255/0).  But in the
first revision the `case "giant"` arm is missing its `break`, so it falls
through into `default` and a giant star gets mass SUN, not the claimed
1000·SUN. -/
theorem star_mass_table_and_giant_fall_through :
    (mkStar 0 0 0 0 "main").mass = SUN ∧
    (mkStar 0 0 0 0 "blue").mass = 50 * SUN ∧
    (mkStar 0 0 0 0 "red").mass = 0.1 * SUN ∧
    (mkStar 0 0 0 0 "yellow").mass = 0.85 * SUN ∧
    (0.5 * SUN ≤ (mkStar 0 0 0 0 "orange").mass ∧
      (mkStar 0 0 0 0 "orange").mass ≤ 0.6 * SUN) ∧
    (mkStar 0 0 0 0 "giant").mass = 1000 * SUN ∧
    ((mkStar 0 0 0 0 "unknown").mass = SUN ∧
      (mkStar 0 0 0 0 "unknown").r = 255 ∧
      (mkStar 0 0 0 0 "unknown").g = 255 ∧
      (mkStar 0 0 0 0 "unknown").b = 0) ∧
    (mkStarV1 0 0 0 0 "giant").mass = SUN ∧
    (mkStarV1 0 0 0 0 "giant").mass ≠ 1000 * SUN := by
  refine ⟨?_, ?_, ?_, ?_, ⟨?_, ?_⟩, ?_, ⟨?_, ?_, ?_, ?_⟩, ?_, ?_⟩ <;>
    simp [mkStar, mkStarV1, mkBody, SUN] <;> norm_num

lemma speed_of_polar (v φ : ℝ) (hv : 0 ≤ v) :
    Real.sqrt ((v * Real.cos φ) ^ 2 + (v * Real.sin φ) ^ 2) = v := by
  have h : (v * Real.cos φ) ^ 2 + (v * Real.sin φ) ^ 2 = v ^ 2 := by
    have hsc := Real.sin_sq_add_cos_sq φ
    calc (v * Real.cos φ) ^ 2 + (v * Real.sin φ) ^ 2
        = v ^ 2 * (Real.sin φ ^ 2 + Real.cos φ ^ 2) := by ring
      _ = v ^ 2 := by rw [hsc, mul_one]
  rw [h, Real.sqrt_sq hv]

lemma sub_div_swap_eq (a b c d : ℝ) : (a - b) / (c - d) = (b - a) / (d - c) := by
  rw [← neg_sub b a, ← neg_sub d c, neg_div_neg_eq]

/-- Swapping the two bodies changes the bearing by `±π`, so the `+π/2`
tangential directions used by the orbit seeders are exactly opposite. -/
lemma angle_swap_cos_sin {a b : Body} (h : ¬ samePos a b) :
    Real.cos (angle b a + Real.pi / 2) = -Real.cos (angle a b + Real.pi / 2) ∧
    Real.sin (angle b a + Real.pi / 2) = -Real.sin (angle a b + Real.pi / 2) := by
  rcases lt_trichotomy a.x b.x with hx | hx | hx
  · rw [angle_of_gt hx, angle_of_lt hx, sub_div_swap_eq a.y b.y a.x b.x]
    have hrw : Real.pi + Real.arctan ((b.y - a.y) / (b.x - a.x)) + Real.pi / 2 =
        Real.arctan ((b.y - a.y) / (b.x - a.x)) + Real.pi / 2 + Real.pi := by ring
    rw [hrw, Real.cos_add_pi, Real.sin_add_pi]
    exact ⟨rfl, rfl⟩
  · rcases lt_trichotomy a.y b.y with hy | hy | hy
    · rw [angle_of_eq_pos hx.symm hy, angle_of_eq_nonpos hx hy.le]
      have h1 : 3 * Real.pi / 2 + Real.pi / 2 = Real.pi / 2 + Real.pi / 2 + Real.pi := by
        ring
      have h2 : Real.pi / 2 + Real.pi / 2 = Real.pi := by ring
      rw [h1, Real.cos_add_pi, Real.sin_add_pi, h2, Real.cos_pi, Real.sin_pi]
      norm_num
    · exact absurd ⟨hx, hy⟩ h
    · rw [angle_of_eq_nonpos hx.symm hy.le, angle_of_eq_pos hx hy]
      have h1 : 3 * Real.pi / 2 + Real.pi / 2 = Real.pi / 2 + Real.pi / 2 + Real.pi := by
        ring
      have h2 : Real.pi / 2 + Real.pi / 2 = Real.pi := by ring
      rw [h1, Real.cos_add_pi, Real.sin_add_pi, h2, Real.cos_pi, Real.sin_pi]
      norm_num
  · rw [angle_of_lt hx, angle_of_gt hx, sub_div_swap_eq a.y b.y a.x b.x]
    have hrw : Real.pi + Real.arctan ((b.y - a.y) / (b.x - a.x)) + Real.pi / 2 =
        Real.arctan ((b.y - a.y) / (b.x - a.x)) + Real.pi / 2 + Real.pi := by ring
    rw [hrw, Real.cos_add_pi, Real.sin_add_pi]
    constructor <;> rw [neg_neg]

/-- The bearing returned by `angle p q` lies along the segment from `p` to
`q`: its sine and cosine are proportional to the coordinate differences. -/
lemma sin_angle_mul_eq (p q : Body) :
    Real.sin (angle p q) * (q.x - p.x) = Real.cos (angle p q) * (q.y - p.y) := by
  rcases lt_trichotomy p.x q.x with hx | hx | hx
  · rw [angle_of_gt hx, Real.sin_arctan, Real.cos_arctan]
    have hdx : q.x - p.x ≠ 0 := sub_ne_zero.mpr hx.ne'
    have hs : Real.sqrt (1 + ((q.y - p.y) / (q.x - p.x)) ^ 2) ≠ 0 :=
      ne_of_gt (Real.sqrt_pos.mpr (by positivity))
    field_simp
    ring
  · rcases lt_or_le p.y q.y with hy | hy
    · rw [angle_of_eq_pos hx.symm hy, Real.sin_pi_div_two, Real.cos_pi_div_two,
        sub_eq_zero.mpr hx.symm]
      ring
    · rw [angle_of_eq_nonpos hx.symm hy]
      have h1 : 3 * Real.pi / 2 = Real.pi / 2 + Real.pi := by ring
      rw [h1, Real.sin_add_pi, Real.cos_add_pi, Real.sin_pi_div_two,
        Real.cos_pi_div_two, sub_eq_zero.mpr hx.symm]
      ring
  · rw [angle_of_lt hx, add_comm, Real.sin_add_pi, Real.cos_add_pi,
      Real.sin_arctan, Real.cos_arctan]
    have hdx : q.x - p.x ≠ 0 := sub_ne_zero.mpr hx.ne
    have hs : Real.sqrt (1 + ((q.y - p.y) / (q.x - p.x)) ^ 2) ≠ 0 :=
      ne_of_gt (Real.sqrt_pos.mpr (by positivity))
    field_simp
    ring

/-- C6: for every child and anchor at distinct positions — the anchor's
velocity arbitrary — `assignParent(child, anchor)` sets the child's
velocity to the anchor's current velocity plus a component of magnitude
`sqrt(G·anchor.mass/distance)` directed `+π/2` from the child→anchor
bearing: the child's velocity relative to the anchor has exactly that
magnitude and is perpendicular to the anchor→child segment.  In
particular, with the anchor at rest the child's resulting speed equals
`sqrt(G·anchor.mass/r)` and its velocity is perpendicular to the
anchor→child line. -/
theorem assignParent_circular_orbit (child anchor : Body)
    (hpos : ¬ samePos child anchor) :
    (assignParent child anchor).vx =
      Real.sqrt (G * anchor.mass / distance child anchor) *
        Real.cos (angle child anchor + Real.pi / 2) + anchor.vx ∧
    (assignParent child anchor).vy =
      Real.sqrt (G * anchor.mass / distance child anchor) *
        Real.sin (angle child anchor + Real.pi / 2) + anchor.vy ∧
    Real.sqrt (((assignParent child anchor).vx - anchor.vx) ^ 2 +
        ((assignParent child anchor).vy - anchor.vy) ^ 2) =
      Real.sqrt (G * anchor.mass / distance child anchor) ∧
    ((assignParent child anchor).vx - anchor.vx) * (child.x - anchor.x) +
      ((assignParent child anchor).vy - anchor.vy) * (child.y - anchor.y) = 0 ∧
    (anchor.vx = 0 → anchor.vy = 0 →
      getSpeed (assignParent child anchor) =
        Real.sqrt (G * anchor.mass / distance child anchor) ∧
      (assignParent child anchor).vx * (child.x - anchor.x) +
        (assignParent child anchor).vy * (child.y - anchor.y) = 0) := by
  have hvx : (assignParent child anchor).vx =
      Real.sqrt (G * anchor.mass / distance child anchor) *
        Real.cos (angle child anchor + Real.pi / 2) + anchor.vx := rfl
  have hvy : (assignParent child anchor).vy =
      Real.sqrt (G * anchor.mass / distance child anchor) *
        Real.sin (angle child anchor + Real.pi / 2) + anchor.vy := rfl
  have hrelx : (assignParent child anchor).vx - anchor.vx =
      Real.sqrt (G * anchor.mass / distance child anchor) *
        Real.cos (angle child anchor + Real.pi / 2) := by
    rw [hvx]; ring
  have hrely : (assignParent child anchor).vy - anchor.vy =
      Real.sqrt (G * anchor.mass / distance child anchor) *
        Real.sin (angle child anchor + Real.pi / 2) := by
    rw [hvy]; ring
  have hperp : Real.sqrt (G * anchor.mass / distance child anchor) *
        Real.cos (angle child anchor + Real.pi / 2) * (child.x - anchor.x) +
      Real.sqrt (G * anchor.mass / distance child anchor) *
        Real.sin (angle child anchor + Real.pi / 2) * (child.y - anchor.y) = 0 := by
    rw [Real.cos_add_pi_div_two, Real.sin_add_pi_div_two]
    have h3 := sin_angle_mul_eq child anchor
    linear_combination Real.sqrt (G * anchor.mass / distance child anchor) * h3
  refine ⟨hvx, hvy, ?_, ?_, fun h0x h0y => ⟨?_, ?_⟩⟩
  · rw [hrelx, hrely]
    exact speed_of_polar _ _ (Real.sqrt_nonneg _)
  · rw [hrelx, hrely]
    exact hperp
  · show Real.sqrt ((assignParent child anchor).vx ^ 2 +
        (assignParent child anchor).vy ^ 2) = _
    rw [hvx, hvy, h0x, h0y, add_zero, add_zero]
    exact speed_of_polar _ _ (Real.sqrt_nonneg _)
  · rw [hvx, hvy, h0x, h0y, add_zero, add_zero]
    exact hperp

/-- Witness for C6 at two concrete inputs: a moving anchor (bodyB2, with
velocity (-3, 2)) exercising the general vector-sum clause, and an at-rest
anchor (bodyA) exercising the specialised speed/perpendicularity clause. -/
theorem assignParent_circular_orbit_witness :
    ((assignParent bodyA2 bodyB2).vx =
      Real.sqrt (G * bodyB2.mass / distance bodyA2 bodyB2) *
        Real.cos (angle bodyA2 bodyB2 + Real.pi / 2) + bodyB2.vx ∧
     (assignParent bodyA2 bodyB2).vy =
      Real.sqrt (G * bodyB2.mass / distance bodyA2 bodyB2) *
        Real.sin (angle bodyA2 bodyB2 + Real.pi / 2) + bodyB2.vy ∧
     Real.sqrt (((assignParent bodyA2 bodyB2).vx - bodyB2.vx) ^ 2 +
        ((assignParent bodyA2 bodyB2).vy - bodyB2.vy) ^ 2) =
      Real.sqrt (G * bodyB2.mass / distance bodyA2 bodyB2) ∧
     ((assignParent bodyA2 bodyB2).vx - bodyB2.vx) * (bodyA2.x - bodyB2.x) +
      ((assignParent bodyA2 bodyB2).vy - bodyB2.vy) * (bodyA2.y - bodyB2.y) = 0) ∧
    (bodyA.vx = 0 → bodyA.vy = 0 →
      getSpeed (assignParent bodyB bodyA) =
        Real.sqrt (G * bodyA.mass / distance bodyB bodyA) ∧
      (assignParent bodyB bodyA).vx * (bodyB.x - bodyA.x) +
        (assignParent bodyB bodyA).vy * (bodyB.y - bodyA.y) = 0) :=
  ⟨by
    obtain ⟨h1, h2, h3, h4, _⟩ := assignParent_circular_orbit bodyA2 bodyB2
      (by simp only [samePos, bodyA2, bodyB2]; norm_num)
    exact ⟨h1, h2, h3, h4⟩,
   (assignParent_circular_orbit bodyB bodyA
      (by simp only [samePos, bodyA, bodyB]; norm_num)).2.2.2.2⟩

lemma speed_assignBinary_fst (a b : Body) :
    getSpeed (assignBinary a b).1 = binV1 a b := by
  have hv : 0 ≤ binV1 a b := by unfold binV1; exact Real.sqrt_nonneg _
  exact speed_of_polar (binV1 a b) (angle a b + Real.pi / 2) hv

lemma speed_assignBinary_snd (a b : Body) :
    getSpeed (assignBinary a b).2 = binV2 a b := by
  have hv : 0 ≤ binV2 a b := by unfold binV2; exact Real.sqrt_nonneg _
  exact speed_of_polar (binV2 a b) (angle b a + Real.pi / 2) hv

/-- C4: `assignBinary` gives the two bodies the claimed mutual circular
orbit speeds `sqrt(G·m_B²/(r·(m_A+m_B)))` and `sqrt(G·m_A²/(r·(m_A+m_B)))`,
each directed `+π/2` from that body's own bearing toward the other, and the
two tangential velocity vectors are exactly opposite in direction
(counter-rotating about the barycenter). -/
theorem assignBinary_mutual_orbit (a b : Body) (hma : 0 < a.mass)
    (hmb : 0 < b.mass) (hpos : ¬ samePos a b) :
    getSpeed (assignBinary a b).1 = binV1 a b ∧
    getSpeed (assignBinary a b).2 = binV2 a b ∧
    (assignBinary a b).1.vx = binV1 a b * Real.cos (angle a b + Real.pi / 2) ∧
    (assignBinary a b).1.vy = binV1 a b * Real.sin (angle a b + Real.pi / 2) ∧
    (assignBinary a b).2.vx =
      -(binV2 a b * Real.cos (angle a b + Real.pi / 2)) ∧
    (assignBinary a b).2.vy =
      -(binV2 a b * Real.sin (angle a b + Real.pi / 2)) := by
  obtain ⟨hc, hs⟩ := angle_swap_cos_sin hpos
  refine ⟨speed_assignBinary_fst a b, speed_assignBinary_snd a b, rfl, rfl, ?_, ?_⟩
  · show binV2 a b * Real.cos (angle b a + Real.pi / 2) = _
    rw [hc]
    ring
  · show binV2 a b * Real.sin (angle b a + Real.pi / 2) = _
    rw [hs]
    ring

/-- Witness for C4 at the concrete pair bodyA = (0,0), bodyB = (1,0). -/
theorem assignBinary_mutual_orbit_witness :
    getSpeed (assignBinary bodyA bodyB).1 = binV1 bodyA bodyB ∧
    getSpeed (assignBinary bodyA bodyB).2 = binV2 bodyA bodyB ∧
    (assignBinary bodyA bodyB).1.vx =
      binV1 bodyA bodyB * Real.cos (angle bodyA bodyB + Real.pi / 2) ∧
    (assignBinary bodyA bodyB).1.vy =
      binV1 bodyA bodyB * Real.sin (angle bodyA bodyB + Real.pi / 2) ∧
    (assignBinary bodyA bodyB).2.vx =
      -(binV2 bodyA bodyB * Real.cos (angle bodyA bodyB + Real.pi / 2)) ∧
    (assignBinary bodyA bodyB).2.vy =
      -(binV2 bodyA bodyB * Real.sin (angle bodyA bodyB + Real.pi / 2)) :=
  assignBinary_mutual_orbit bodyA bodyB (by norm_num [bodyA])
    (by norm_num [bodyB]) (by simp only [samePos, bodyA, bodyB]; norm_num)

/-- C5: after `assignBinary(A, B)` the momenta balance:
`mass_A · |v_A| = mass_B · |v_B|`. -/
theorem assignBinary_momentum_balance (a b : Body) (hma : 0 < a.mass)
    (hmb : 0 < b.mass) (hpos : ¬ samePos a b) :
    a.mass * getSpeed (assignBinary a b).1 =
      b.mass * getSpeed (assignBinary a b).2 := by
  rw [speed_assignBinary_fst, speed_assignBinary_snd]
  unfold binV1 binV2
  rw [show G * b.mass ^ 2 / (distance a b * (a.mass + b.mass)) =
      b.mass ^ 2 * (G / (distance a b * (a.mass + b.mass))) from by ring,
    show G * a.mass ^ 2 / (distance a b * (a.mass + b.mass)) =
      a.mass ^ 2 * (G / (distance a b * (a.mass + b.mass))) from by ring,
    Real.sqrt_mul (sq_nonneg _), Real.sqrt_mul (sq_nonneg _),
    Real.sqrt_sq hmb.le, Real.sqrt_sq hma.le]
  ring

/-- Witness for C5 at the concrete pair bodyA, bodyB. -/
theorem assignBinary_momentum_balance_witness :
    bodyA.mass * getSpeed (assignBinary bodyA bodyB).1 =
      bodyB.mass * getSpeed (assignBinary bodyA bodyB).2 :=
  assignBinary_momentum_balance bodyA bodyB (by norm_num [bodyA])
    (by norm_num [bodyB]) (by simp only [samePos, bodyA, bodyB]; norm_num)

/-- C10: `assignBinary` overwrites both velocities outright — its result
velocities depend only on the two bodies' masses and positions, never on
the velocities they had before the call. -/
theorem assignBinary_discards_old_velocities (a b a2 b2 : Body)
    (hma : 0 < a.mass) (hmb : 0 < b.mass) (hpos : ¬ samePos a b)
    (ha2 : phys a2 = phys a) (hb2 : phys b2 = phys b) :
    (assignBinary a2 b2).1.vx = (assignBinary a b).1.vx ∧
    (assignBinary a2 b2).1.vy = (assignBinary a b).1.vy ∧
    (assignBinary a2 b2).2.vx = (assignBinary a b).2.vx ∧
    (assignBinary a2 b2).2.vy = (assignBinary a b).2.vy := by
  simp only [phys, Prod.mk.injEq] at ha2 hb2
  obtain ⟨hm1, hx1, hy1⟩ := ha2
  obtain ⟨hm2, hx2, hy2⟩ := hb2
  refine ⟨?_, ?_, ?_, ?_⟩ <;>
    simp only [assignBinary, binV1, binV2, distance, angle, hm1, hx1, hy1,
      hm2, hx2, hy2]

/-- Witness for C10: changing the pre-call velocities leaves the
post-`assignBinary` velocities unchanged. -/
theorem assignBinary_discards_old_velocities_witness :
    (assignBinary bodyA2 bodyB2).1.vx = (assignBinary bodyA bodyB).1.vx ∧
    (assignBinary bodyA2 bodyB2).1.vy = (assignBinary bodyA bodyB).1.vy ∧
    (assignBinary bodyA2 bodyB2).2.vx = (assignBinary bodyA bodyB).2.vx ∧
    (assignBinary bodyA2 bodyB2).2.vy = (assignBinary bodyA bodyB).2.vy :=
  assignBinary_discards_old_velocities bodyA bodyB bodyA2 bodyB2
    (by norm_num [bodyA]) (by norm_num [bodyB])
    (by simp only [samePos, bodyA, bodyB]; norm_num) rfl rfl

end PlanetaryMotion
